import Mathlib

/-!
Verification of the regenesis-surgery core: a shallow embedding of the
TypeScript sources (dump reader, dump validator, source resolver, account
handlers, immutable relocation loop) together with proofs and refutations of
the specification claims.

JavaScript objects produced by JSON.parse are modelled by the inductive
`JsVal`; JS objects used as dictionaries are association lists in insertion
order.  JS strings are Lean strings; the JS string operations used by the
sources (slice, substr, startsWith, toLowerCase) are defined below on the
underlying character list.  External collaborators that are not code of this
repository (JSON.parse, the solc compiler, keccak256, the RPC getCode call,
the constants module) are taken as explicit parameters of the functions that
call them.
-/

set_option autoImplicit false

namespace Regen

/-- Model of a JavaScript value as produced by JSON.parse, plus `nan`
(needed because the source feeds the result of parseInt into a document).
Objects keep fields in insertion order. -/
inductive JsVal where
  | null
  | bool (b : Bool)
  | num (n : Int)
  | nan
  | str (s : String)
  | arr (elems : List JsVal)
  | obj (fields : List (String × JsVal))

/-- JS truthiness of a value. -/
def jsTruthy : JsVal → Bool
  | .null => false
  | .bool b => b
  | .num n => n != 0
  | .nan => false
  | .str s => s != ""
  | .arr _ => true
  | .obj _ => true

/-- Property read `v[k]` on a JsVal; `none` models `undefined`.  Reading a
property of a non-object yields `undefined` (the sources never read the
built-in properties of primitives by a dynamic key). -/
def jsGet : JsVal → String → Option JsVal
  | .obj fields, k => fields.lookup k
  | _, _ => none

/-- Property read on a possibly-undefined value: reading a property of
`undefined` throws a TypeError in JS. -/
def jsIdx : Option JsVal → String → Except String (Option JsVal)
  | none, _ => .error ("TypeError: Cannot read properties of undefined")
  | some v, k => .ok (jsGet v k)

/-- Truthiness of a possibly-undefined value (`undefined` is falsy). -/
def jsTruthyO : Option JsVal → Bool
  | none => false
  | some v => jsTruthy v

/-- JS object assignment `m[k] = v` on an association list: an existing key
keeps its position and gets the new value, a new key is appended. -/
def jsSet {β : Type} : List (String × β) → String → β → List (String × β)
  | [], k, v => [(k, v)]
  | (k', v') :: rest, k, v =>
    if k' == k then (k', v) :: rest else (k', v') :: jsSet rest k v

/-- JS `delete o[k]` on an association list. -/
def jsDelete {β : Type} (fields : List (String × β)) (k : String) :
    List (String × β) :=
  fields.filter (fun p => p.1 != k)

/-- Delete a field of an object value (other values are unchanged, matching
JS where `delete` on a primitive property is a no-op). -/
def jsDeleteField : JsVal → String → JsVal
  | .obj fields, k => .obj (jsDelete fields k)
  | v, _ => v

/-- Replace the value of a field of an object value (used for the
`input.sources = json` assignment in the source resolver). -/
def jsSetField : JsVal → String → JsVal → JsVal
  | .obj fields, k, v => .obj (jsSet fields k v)
  | w, _, _ => w

/-- JS `String.prototype.toLowerCase` (ASCII case folding suffices for the
strings the sources manipulate). -/
def jsToLower (s : String) : String :=
  String.mk (s.data.map Char.toLower)

/-- JS `String.prototype.startsWith`. -/
def jsStartsWith (s pat : String) : Bool :=
  pat.data.isPrefixOf s.data

/-- JS `String.prototype.slice(b, e)` for non-negative bounds. -/
def jsSlice (s : String) (b e : Nat) : String :=
  String.mk ((s.data.drop b).take (e - b))

/-- JS `String.prototype.slice(b)` for a non-negative bound. -/
def jsSliceFrom (s : String) (b : Nat) : String :=
  String.mk (s.data.drop b)

/-- JS `String.prototype.substr(0, n)`. -/
def jsSubstr0 (s : String) (n : Nat) : String :=
  String.mk (s.data.take n)

/-- JS `String.prototype.slice(1, -1)`: drop the first and last character. -/
def jsSliceTrimEnds (s : String) : String :=
  String.mk ((s.data.drop 1).dropLast)

/-- The `is-a-JS-number` test used for the `typeof x === number` check. -/
def JsVal.isNum : JsVal → Bool
  | .num _ => true
  | .nan => true
  | _ => false

/-- Display of a JsVal inside a template literal (only used to build error
messages whose content no claim depends on). -/
def jsDisplay : JsVal → String
  | .null => "null"
  | .bool true => "true"
  | .bool false => "false"
  | .num n => toString n
  | .nan => "NaN"
  | .str s => s
  | .arr _ => "[array]"
  | .obj _ => "[object Object]"

/-- Decimal digits of a nonempty digit list, most significant first. -/
def digitsToNat (l : List Char) : Nat :=
  l.foldl (fun acc c => acc * 10 + (c.toNat - ('0').toNat)) 0

/-- JS `parseInt(s, 10)`: skip leading whitespace, optional sign, then the
longest run of decimal digits; NaN when that run is empty. -/
def jsParseInt (s : String) : JsVal :=
  let t := s.data.dropWhile (fun c => c == ' ' || c == '\t' || c == '\n' || c == '\r')
  let signed : Bool × List Char :=
    match t with
    | '-' :: rest => (true, rest)
    | '+' :: rest => (false, rest)
    | _ => (false, t)
  let digits := signed.2.takeWhile (fun c => ('0').toNat ≤ c.toNat && c.toNat ≤ ('9').toNat)
  if digits.isEmpty then .nan
  else if signed.1 then .num (-(digitsToNat digits : Int))
  else .num (digitsToNat digits)

/-- Lower-case hexadecimal digit characters. -/
def hexLowerChars : List Char :=
  ("0123456789abcdef").data

/-- Hexadecimal digit characters of either case. -/
def hexChars : List Char :=
  hexLowerChars ++ ("ABCDEF").data

/-- Model of ethers.utils.isHexString: `0x` followed by hex digits of either
case (the sources only call it on strings). -/
def isHexStringJS (s : String) : Bool :=
  jsStartsWith s ("0x") && (s.data.drop 2).all (fun c => hexChars.contains c)

/-!  The account record.  Fields follow the TS declaration of `Account`
(`address`, `nonce`, `balance`, `codeHash`, `root`, optional `code`,
optional `storage`).  `nonce` is kept as a parsed JSON value because the
validator inspects its runtime type with `typeof`; the remaining fields are
modelled at their declared string types (the validator calls string methods
on them directly, so a non-string there would raise a TypeError, which is
still a raise and does not enlarge the set of runs that return normally). -/

structure Account where
  address : String
  nonce : Regen.JsVal
  balance : String
  codeHash : String
  root : String
  code : Option String := none
  storage : Option (List (String × String)) := none

/-- The archived verified-source record (external dataset schema). -/
structure EtherscanContract where
  contractAddress : String
  sourceCode : String
  compilerVersion : String
  optimizationUsed : String
  runs : String
  contractName : String
  contractFileName : Option String := none

/-- One entry of the legacy-to-new pool address mapping. -/
structure UniswapPoolData where
  oldAddress : String
  newAddress : String

/-- KECCAK256_NULL_S of ethereumjs-util: keccak256 of the empty byte string,
the canonical empty-code hash. -/
def KECCAK256_NULL_S : String :=
  "c5d2460186f7233c927e7db2dcc703c0e500b653ca82273b7bfad8045d85a470"

/-- KECCAK256_RLP_S of ethereumjs-util: keccak256 of the RLP of the empty
string, the canonical empty-storage-trie root hash. -/
def KECCAK256_RLP_S : String :=
  "56e81f171bcc55a6ff8345e692c0f86e5b48e01b996cadc001622fb5e363b421"

/-- The message of the JS TypeError raised by a property access on
`undefined`.  It is a fixed string: it never mentions the account that was
being processed. -/
def jsUndefinedAccessMsg : String :=
  "TypeError: Cannot read properties of undefined"

/-- hexStringEqual of utils.ts: throws when either argument is not a hex
string, otherwise compares the lower-cased strings. -/
def hexStringEqual (a b : String) : Except String Bool :=
  if !isHexStringJS a then .error ("not a hex string: " ++ a)
  else if !isHexStringJS b then .error ("not a hex string: " ++ b)
  else .ok (jsToLower a == jsToLower b)

/-- findAccount of utils.ts: `dump.find(acc => hexStringEqual(acc.address,
address))`.  An exception thrown by the predicate propagates out of
Array.prototype.find, hence the Except layer; a miss returns `undefined`,
modelled as `none`. -/
def findAccount : List Account → String → Except String (Option Account)
  | [], _ => .ok none
  | acc :: rest, address => do
    let b ← hexStringEqual acc.address address
    if b then .ok (some acc) else findAccount rest address

/-- Spread-merge of two optional storage objects, `{ ...a, ...b }`: the
spread of `undefined` contributes nothing, keys of `b` override keys of
`a`, insertion order is keys of `a` then fresh keys of `b`. -/
def spreadMerge (a b : Option (List (String × String))) :
    List (String × String) :=
  (b.getD []).foldl (fun m kv => jsSet m kv.1 kv.2) (a.getD [])

/-- The EOA handler: a fresh record carrying over address, nonce and
balance, with the empty-code and empty-storage constants and no code or
storage fields. -/
def handlerEOA (account : Account) : Account :=
  { address := account.address
    nonce := account.nonce
    balance := account.balance
    codeHash := KECCAK256_NULL_S
    root := KECCAK256_RLP_S }

/-- The PREDEPLOY_WIPE handler: overwrite code, codeHash and storage with
the genesis-dump account of the same address.  When that account is absent,
`findAccount` yields `undefined` and the access `genesisAccount.code`
raises a TypeError. -/
def handlerPredeployWipe (genesis : List Account) (account : Account) :
    Except String Account := do
  let genesisAccount ← findAccount genesis account.address
  match genesisAccount with
  | none => .error jsUndefinedAccessMsg
  | some g =>
    .ok { account with code := g.code, codeHash := g.codeHash, storage := g.storage }

/-- The PREDEPLOY_NO_WIPE handler: code and codeHash from genesis, storage
spread-merged with genesis overriding the old entries. -/
def handlerPredeployNoWipe (genesis : List Account) (account : Account) :
    Except String Account := do
  let genesisAccount ← findAccount genesis account.address
  match genesisAccount with
  | none => .error jsUndefinedAccessMsg
  | some g =>
    .ok { account with
          code := g.code
          codeHash := g.codeHash
          storage := some (spreadMerge account.storage g.storage) }

/-- The PREDEPLOY_ETH handler: code and codeHash from genesis, storage the
legacy ETH account storage with genesis overriding.  Both lookups run
before any property access; the genesis access happens first in the object
literal, so a missing genesis account raises before a missing legacy ETH
account does.  The OLD_ETH_ADDRESS constant lives in the constants module,
which is not part of the analysed sources, so it is a parameter. -/
def handlerPredeployEth (genesis dump : List Account) (oldEthAddress : String)
    (account : Account) : Except String Account := do
  let genesisAccount ← findAccount genesis account.address
  let oldEthAccount ← findAccount dump oldEthAddress
  match genesisAccount with
  | none => .error jsUndefinedAccessMsg
  | some g =>
    match oldEthAccount with
    | none => .error jsUndefinedAccessMsg
    | some e =>
      .ok { account with
            code := g.code
            codeHash := g.codeHash
            storage := some (spreadMerge e.storage g.storage) }

/-- The UNISWAP_V3_POOL handler: look up the pool record whose oldAddress
strictly equals the account address, fetch the live code at the new address
from the new-chain RPC client (`getCode`, an external capability), rewrite
the address and recompute the code hash with keccak256 (external, taken as
a parameter).  A missing pool record makes `poolData.newAddress` a property
access on `undefined`. -/
def handlerUniswapV3Pool (getCode keccak256 : String → String)
    (pools : List UniswapPoolData) (account : Account) :
    Except String Account :=
  match pools.find? (fun pool => pool.oldAddress == account.address) with
  | none => .error jsUndefinedAccessMsg
  | some poolData =>
    let poolCode := getCode poolData.newAddress
    .ok { account with
          address := poolData.newAddress
          code := some poolCode
          codeHash := keccak256 poolCode }

/-!  Source resolver (solcInput of utils.ts).  JSON.parse is an external
builtin and is passed as a parameter `parse`; `none` models a parse throw.
JSON.parse never yields `undefined`, and a parse result of `null` makes the
`json.language` access throw, which the catch block turns into the base
input, exactly like a parse failure. -/

/-- The base compiler-input document built at the top of solcInput. -/
def solcBaseInput (contract : EtherscanContract) : JsVal :=
  .obj [
    ("language", .str ("Solidity")),
    ("sources", .obj [("file", .obj [("content", .str contract.sourceCode)])]),
    ("settings", .obj [
      ("outputSelection", .obj [("*", .obj [("*", .arr [.str ("*")])])]),
      ("optimizer", .obj [
        ("enabled", .bool (contract.optimizationUsed == "1")),
        ("runs", jsParseInt contract.runs)])])]

/-- The text actually handed to JSON.parse: when the stored source starts
with a double brace the first and last characters are sliced off first. -/
def solcParseText (sourceCode : String) : String :=
  if jsSubstr0 sourceCode 2 == "\x7b\x7b" then jsSliceTrimEnds sourceCode
  else sourceCode

/-- solcInput of utils.ts. -/
def solcInput (parse : String → Option JsVal) (contract : EtherscanContract) :
    JsVal :=
  let input := solcBaseInput contract
  match parse (solcParseText contract.sourceCode) with
  | none => input
  | some .null => input
  | some json =>
    if jsTruthyO (jsGet json ("language")) then json
    else jsSetField input ("sources") json

/-!  The VERIFIED handler, stage one (handlers.ts lines 112 to 157): find
the archived record, resolve the compiler input, map the recorded compiler
version to a solc version, compile, and select the artifact under the
recorded file name or the default `file` key.  The compiler session
(getSolc + compile + the JSON round trip) is the external parameter
`compile`; the COMPILER_VERSIONS_TO_SOLC table lives in the constants
module, outside the analysed sources, and is the parameter
`versionsToSolc`. -/

/-- The file key consulted when selecting the compiled artifact: the
recorded contractFileName when truthy, else the default key `file`. -/
def consultedFileKey (contract : EtherscanContract) : String :=
  match contract.contractFileName with
  | some f => if f == "" then ("file") else f
  | none => "file"

/-- Stage one of the VERIFIED handler, through the selection of
`mainOutput`.  Returns the matched archive record and the selected
artifact; the relocation stage that follows is modelled by
`spliceOccurrences` and `spliceAllRefs` below. -/
def verifiedLookup (parse : String → Option JsVal)
    (versionsToSolc : String → Option String)
    (compile : String → JsVal → JsVal)
    (etherscanDump : List EtherscanContract) (account : Account) :
    Except String (EtherscanContract × JsVal) := do
  match etherscanDump.find? (fun c => c.contractAddress == account.address) with
  | none => .error ("Unable to find " ++ account.address ++ " in etherscan dump")
  | some contract =>
    let input := solcInput parse contract
    match versionsToSolc contract.compilerVersion with
    | none => .error ("Unable to find solc version " ++ contract.compilerVersion)
    | some version =>
      let output := compile version input
      if !jsTruthyO (jsGet output ("contracts")) then
        .error ("Cannot compile " ++ contract.contractAddress)
      else do
        let fileVal ← jsIdx (jsGet output ("contracts")) (consultedFileKey contract)
        let mainOutput ← jsIdx fileVal contract.contractName
        if !jsTruthyO mainOutput then
          .error ("Contract filename mismatch: " ++ contract.contractAddress)
        else
          match mainOutput with
          | some m => .ok (contract, m)
          | none => .error ("Contract filename mismatch: " ++ contract.contractAddress)

/-!  The immutable relocation loop (handlers.ts lines 180 to 222).  The
compiled artifacts have, per named immutable, an ordered list of ranges
`{start, length}` into the deployed bytecode string.  The loop body reads
its working string from `mainOutput.evm.deployedBytecode` again on every
iteration, so each iteration splices into the pristine newly-compiled
bytecode, not into the result of the previous splice; `account.code` is
overwritten each time.  The model reproduces that behaviour exactly. -/

/-- One positional occurrence of an immutable value. -/
structure ImmRef where
  start : Nat
  length : Nat
deriving DecidableEq

/-- One iteration of the splice loop body.  `mainObject` is the newly
compiled deployed bytecode: the source re-reads it from
`mainOutput.evm.deployedBytecode` on every iteration, so the working string
of every splice is the pristine compiled bytecode, never the result of the
previous splice.  `ovmObject` is the paired historical bytecode. -/
def spliceStep (mainObject ovmObject : String) (ref ovmRef : ImmRef) :
    Except String String :=
  if ref.length != ovmRef.length then .error ("length mismatch")
  else
    let immutable := jsSlice ovmObject ovmRef.start (ovmRef.start + ovmRef.length)
    let object := mainObject
    let pre := jsSlice object 0 ref.start
    let post := jsSliceFrom object (ref.start + ref.length)
    let bytecode := pre ++ immutable ++ post
    if bytecode.length != object.length then
      .error ("mismatch in size: " ++ toString bytecode.length ++ " vs "
        ++ toString object.length)
    else .ok bytecode

/-- The inner loop over the positional occurrences of one named immutable.
The previous value of `account.code` (third list argument position) is
overwritten, never read, by the loop body, exactly as in the source.  A
missing positional counterpart in the historical list makes
`ovmRef.length` a property access on `undefined`. -/
def spliceOccurrences (mainObject ovmObject : String) :
    List ImmRef → List ImmRef → String → Except String String
  | [], _, code => .ok code
  | _ :: _, [], _ => .error jsUndefinedAccessMsg
  | ref :: refs, ovmRef :: ovmRefs, _ => do
    let bytecode ← spliceStep mainObject ovmObject ref ovmRef
    spliceOccurrences mainObject ovmObject refs ovmRefs bytecode

/-- The outer loop over the named immutables (Object.entries of the
immutableReferences of the new artifact, keyed by AST id).  A key missing
from the paired historical references is fatal. -/
def spliceAllRefs (mainObject ovmObject : String)
    (ovmRefs : List (String × List ImmRef)) :
    List (String × List ImmRef) → String → Except String String
  | [], code => .ok code
  | (key, value) :: entries, code =>
    match ovmRefs.lookup key with
    | none => .error ("cannot find ast in ovm compiler output")
    | some ovmValue => do
      let code' ← spliceOccurrences mainObject ovmObject value ovmValue code
      spliceAllRefs mainObject ovmObject ovmRefs entries code'

/-!  Dump reader (readDumpFile of utils.ts).  The byline stream delivers the
file one line at a time, in order; the model takes the list of lines.  The
first line sets `dump.root = data.root`; every later line is stored under
its `address` value after the `address` and `key` fields are deleted.
JSON.parse is the external parameter `parse`; a parse throw on any line
aborts the read. -/

/-- The structure built by the dump reader.  `root` is `data.root` of the
first line (`undefined`, that is `none`, when the first line has no root
field; the initial value is the empty string). -/
structure StateDumpRoot where
  root : Option JsVal
  accounts : List (String × JsVal)

/-- Coercion of the `address` value to a JS object key (String(address)).
Only the string case is exercised by well-formed dumps; the other cases
follow the standard JS coercions for completeness. -/
def jsKeyOf : Option JsVal → String
  | none => "undefined"
  | some v => jsDisplay v

/-- The loop body of the dump reader over the remaining lines. -/
def readDumpLines (parse : String → Except String JsVal) :
    List String → Bool → StateDumpRoot → Except String StateDumpRoot
  | [], _, dump => .ok dump
  | line :: rest, isFirstRow, dump => do
    let data ← parse line
    if isFirstRow then
      readDumpLines parse rest false { dump with root := jsGet data ("root") }
    else
      let address := jsGet data ("address")
      let stored := jsDeleteField (jsDeleteField data ("address")) ("key")
      readDumpLines parse rest false
        { dump with accounts := jsSet dump.accounts (jsKeyOf address) stored }

/-- readDumpFile of utils.ts, as a function of the list of lines. -/
def readDumpFile (parse : String → Except String JsVal) (lines : List String) :
    Except String StateDumpRoot :=
  readDumpLines parse lines true { root := some (.str ("")), accounts := [] }

/-!  Dump validator (checkStateDumpRoot of utils.ts).  It walks
Object.entries of the accounts mapping and raises the first failed
assertion.  The balance assertion is skipped exactly when the address
starts with 0x followed by 38 zero characters. -/

/-- The 40-character string `0x` followed by 38 zeros used by the balance
exemption test of the validator. -/
def precompileMarker : String :=
  "0x00000000000000000000000000000000000000"

/-- First assertion of the validator loop: the address key has no upper
case character. -/
def checkAddressLower (address : String) : Except String Unit :=
  if jsToLower address != address then
    .error ("unexpected upper case character in state dump address: " ++ address)
  else .ok ()

/-- Second assertion: the nonce is a number at runtime. -/
def checkNonceNumber (account : Account) : Except String Unit :=
  if !account.nonce.isNum then
    .error ("nonce is not a number: " ++ jsDisplay account.nonce)
  else .ok ()

/-- Third assertion: codeHash has no upper case character. -/
def checkCodeHashLower (account : Account) : Except String Unit :=
  if jsToLower account.codeHash != account.codeHash then
    .error ("unexpected upper case character in state dump codeHash: "
      ++ account.codeHash)
  else .ok ()

/-- Fourth assertion: the storage root has no upper case character. -/
def checkRootLower (account : Account) : Except String Unit :=
  if jsToLower account.root != account.root then
    .error ("unexpected upper case character in state dump root: " ++ account.root)
  else .ok ()

/-- Fifth assertion, guarded on the presence of the code field: code has no
upper case character. -/
def checkCodeLower (account : Account) : Except String Unit :=
  match account.code with
  | some c =>
    if jsToLower c != c then
      .error ("unexpected upper case character in state dump code: " ++ c)
    else .ok ()
  | none => .ok ()

/-- Sixth assertion, skipped for addresses that start with 0x followed by
38 zeros: the balance equals the string 0. -/
def checkBalanceZero (address : String) (account : Account) :
    Except String Unit :=
  if !jsStartsWith address precompileMarker then
    if account.balance != "0" then
      .error ("unexpected non-zero balance in state dump address: " ++ address)
    else .ok ()
  else .ok ()

/-- The inner loop over Object.entries of the storage object. -/
def checkStorageEntries : List (String × String) → Except String Unit
  | [] => .ok ()
  | (storageKey, storageVal) :: rest =>
    if jsToLower storageKey != storageKey then
      .error ("unexpected upper case character in state dump storage key: "
        ++ storageKey)
    else if jsToLower storageVal != storageVal then
      .error ("unexpected upper case character in state dump storage value: "
        ++ storageVal)
    else checkStorageEntries rest

/-- Seventh assertion, guarded on the presence of the storage field. -/
def checkStorageLower (account : Account) : Except String Unit :=
  match account.storage with
  | some storage => checkStorageEntries storage
  | none => .ok ()

/-- The per-account body of the validator loop, one step per assert
statement of the source, in source order (an assert throw aborts the
loop). -/
def checkAccount (address : String) (account : Account) :
    Except String Unit := do
  checkAddressLower address
  checkNonceNumber account
  checkCodeHashLower account
  checkRootLower account
  checkCodeLower account
  checkBalanceZero address account
  checkStorageLower account

/-- The typed view of a read dump consumed by the validator (the TS type
StateDumpRoot: a root hash and the address-to-account mapping). -/
structure StateDumpRootT where
  root : String
  accounts : List (String × Account)

/-- checkStateDumpRoot of utils.ts (the unused allAddresses binding and the
console.log call have no effect on the result and are omitted). -/
def checkStateDumpRoot (dump : StateDumpRootT) : Except String Unit :=
  go dump.accounts
where
  go : List (String × Account) → Except String Unit
    | [] => .ok ()
    | (address, account) :: rest => do
      checkAccount address account
      go rest

/-!  Theorems. -/

/-- C4: for every input account, the EOA handler returns an account whose
code and storage fields are absent, whose codeHash is the canonical
empty-code hash, whose storage root is the canonical empty-storage-trie
hash, and whose address, nonce and balance are unchanged. -/
theorem C4_eoa_handler (account : Account) :
    (handlerEOA account).code = none ∧
    (handlerEOA account).storage = none ∧
    (handlerEOA account).codeHash = KECCAK256_NULL_S ∧
    (handlerEOA account).root = KECCAK256_RLP_S ∧
    (handlerEOA account).address = account.address ∧
    (handlerEOA account).nonce = account.nonce ∧
    (handlerEOA account).balance = account.balance :=
  ⟨rfl, rfl, rfl, rfl, rfl, rfl, rfl⟩

/-- C5: for every UNISWAP_V3_POOL account whose old address has an entry in
the pool-address mapping, the handler rewrites the address to the mapped
new address, sets the code to the bytecode fetched from the new-chain RPC
client at that address, recomputes codeHash as keccak256 of that code, and
leaves nonce, balance, storage and the storage root unchanged. -/
theorem C5_uniswap_pool_handler (getCode keccak256 : String → String)
    (pools : List UniswapPoolData) (account : Account) (pd : UniswapPoolData)
    (h : pools.find? (fun pool => pool.oldAddress == account.address) = some pd) :
    ∃ out, handlerUniswapV3Pool getCode keccak256 pools account = .ok out ∧
      out.address = pd.newAddress ∧
      out.code = some (getCode pd.newAddress) ∧
      out.codeHash = keccak256 (getCode pd.newAddress) ∧
      out.nonce = account.nonce ∧
      out.balance = account.balance ∧
      out.storage = account.storage ∧
      out.root = account.root := by
  have hrun : handlerUniswapV3Pool getCode keccak256 pools account =
      .ok { account with
            address := pd.newAddress
            code := some (getCode pd.newAddress)
            codeHash := keccak256 (getCode pd.newAddress) } := by
    unfold handlerUniswapV3Pool
    rw [h]
  exact ⟨_, hrun, rfl, rfl, rfl, rfl, rfl, rfl, rfl⟩

/-- Witness for C5 at a concrete pool mapping and account. -/
theorem C5_uniswap_pool_handler_witness :
    ∃ out, handlerUniswapV3Pool (fun _ => "6080cafe") (fun s => s ++ "!")
        [⟨"0xaa", "0xbb"⟩]
        { address := "0xaa", nonce := .num 1, balance := "0",
          codeHash := "ch", root := "rt" } = .ok out ∧
      out.address = "0xbb" ∧
      out.code = some ("6080cafe") ∧
      out.codeHash = "6080cafe!" ∧
      out.nonce = JsVal.num 1 ∧
      out.balance = "0" ∧
      out.storage = none ∧
      out.root = "rt" :=
  C5_uniswap_pool_handler (fun _ => "6080cafe") (fun s => s ++ "!")
    [⟨"0xaa", "0xbb"⟩]
    { address := "0xaa", nonce := .num 1, balance := "0",
      codeHash := "ch", root := "rt" }
    ⟨"0xaa", "0xbb"⟩ rfl

/-- C9: the PREDEPLOY_WIPE, PREDEPLOY_NO_WIPE and PREDEPLOY_ETH handlers
are partial: when the genesis lookup (or, for PREDEPLOY_ETH, the legacy
ETH lookup) returns undefined, the handler fails with the TypeError of an
undefined property access, a fixed message that cannot contain any
0x-prefixed account address. -/
theorem C9_predeploy_handlers_need_dump_entry :
    (∀ (genesis : List Account) (account : Account),
        findAccount genesis account.address = .ok none →
        handlerPredeployWipe genesis account = .error jsUndefinedAccessMsg) ∧
    (∀ (genesis : List Account) (account : Account),
        findAccount genesis account.address = .ok none →
        handlerPredeployNoWipe genesis account = .error jsUndefinedAccessMsg) ∧
    (∀ (genesis dump : List Account) (oldEthAddress : String)
        (account : Account) (r : Option Account),
        findAccount genesis account.address = .ok none →
        findAccount dump oldEthAddress = .ok r →
        handlerPredeployEth genesis dump oldEthAddress account
          = .error jsUndefinedAccessMsg) ∧
    (∀ (genesis dump : List Account) (oldEthAddress : String)
        (account : Account) (g : Account),
        findAccount genesis account.address = .ok (some g) →
        findAccount dump oldEthAddress = .ok none →
        handlerPredeployEth genesis dump oldEthAddress account
          = .error jsUndefinedAccessMsg) ∧
    (∀ s : String, jsSubstr0 s 2 = "0x" →
        ¬ s.data <:+: jsUndefinedAccessMsg.data) := by
  refine ⟨?_, ?_, ?_, ?_, ?_⟩
  · intro genesis account h
    unfold handlerPredeployWipe
    rw [h]; rfl
  · intro genesis account h
    unfold handlerPredeployNoWipe
    rw [h]; rfl
  · intro genesis dump oldEthAddress account r h1 h2
    unfold handlerPredeployEth
    rw [h1, h2]; rfl
  · intro genesis dump oldEthAddress account g h1 h2
    unfold handlerPredeployEth
    rw [h1, h2]; rfl
  · intro s h hinf
    have hdata : s.data.take 2 = ['0', 'x'] := by
      have : (jsSubstr0 s 2).data = ("0x" : String).data := by rw [h]
      simpa [jsSubstr0] using this
    obtain ⟨t, ht⟩ : ∃ t, s.data = '0' :: 'x' :: t := by
      cases hs : s.data with
      | nil => rw [hs] at hdata; simp at hdata
      | cons a l =>
        cases hl : l with
        | nil => rw [hs, hl] at hdata; simp at hdata
        | cons b l' =>
          rw [hs, hl] at hdata
          simp [List.take] at hdata
          exact ⟨l', by rw [hdata.1, hdata.2]⟩
    obtain ⟨u, v, huv⟩ := hinf
    have : ['0', 'x'] <:+: jsUndefinedAccessMsg.data := by
      refine ⟨u, t ++ v, ?_⟩
      rw [← huv, ht]
      simp
    revert this
    decide

/-- Witness for C9 at concrete dumps and accounts: the genesis dump is
empty, so every lookup misses, and each handler yields the fixed
TypeError message, which does not contain the account address. -/
theorem C9_predeploy_handlers_need_dump_entry_witness :
    handlerPredeployWipe []
        { address := "0xaa", nonce := .num 0, balance := "0",
          codeHash := "c", root := "r" } = .error jsUndefinedAccessMsg ∧
    handlerPredeployNoWipe []
        { address := "0xaa", nonce := .num 0, balance := "0",
          codeHash := "c", root := "r" } = .error jsUndefinedAccessMsg ∧
    handlerPredeployEth [] [] "0xee"
        { address := "0xaa", nonce := .num 0, balance := "0",
          codeHash := "c", root := "r" } = .error jsUndefinedAccessMsg ∧
    handlerPredeployEth
        [{ address := "0xaa", nonce := .num 0, balance := "0",
           codeHash := "c", root := "r" }] [] "0xee"
        { address := "0xaa", nonce := .num 0, balance := "0",
          codeHash := "c", root := "r" } = .error jsUndefinedAccessMsg ∧
    ¬ ("0xaa" : String).data <:+: jsUndefinedAccessMsg.data := by
  refine ⟨?_, ?_, ?_, ?_, ?_⟩
  · exact C9_predeploy_handlers_need_dump_entry.1 [] _ rfl
  · exact C9_predeploy_handlers_need_dump_entry.2.1 [] _ rfl
  · exact C9_predeploy_handlers_need_dump_entry.2.2.1 [] [] "0xee" _ none rfl rfl
  · exact C9_predeploy_handlers_need_dump_entry.2.2.2.1 _ [] "0xee" _ _ rfl rfl
  · exact C9_predeploy_handlers_need_dump_entry.2.2.2.2 ("0xaa") rfl

/-!  Lemmas about the splice loop. -/

/-- Computation rule of the Except bind on an error. -/
@[simp] theorem except_error_bind {α β : Type} (msg : String)
    (k : α → Except String β) :
    ((Except.error msg : Except String α) >>= k) = Except.error msg := rfl

/-- Computation rule of the Except bind on a success. -/
@[simp] theorem except_ok_bind {α β : Type} (u : α)
    (k : α → Except String β) :
    ((Except.ok u : Except String α) >>= k) = k u := rfl

/-- A successful splice step always returns a bytecode of the length of the
pristine compiled bytecode. -/
theorem spliceStep_ok_length (main ovm : String) (ref ovmRef : ImmRef)
    (c : String) (h : spliceStep main ovm ref ovmRef = .ok c) :
    c.length = main.length := by
  simp only [spliceStep] at h
  split at h
  · exact absurd h (by simp)
  · split at h
    next hcond => exact absurd h (by simp)
    next hcond =>
      simp only [Except.ok.injEq] at h
      subst h
      simpa using hcond

/-- A splice step with mismatched range lengths is an error. -/
theorem spliceStep_mismatch_error (main ovm : String) (ref ovmRef : ImmRef)
    (h : ref.length ≠ ovmRef.length) :
    spliceStep main ovm ref ovmRef = .error ("length mismatch") := by
  simp [spliceStep, h]

/-- A successful run of the inner occurrence loop returns either the
incoming working string untouched (no occurrence at all) or a string of the
length of the pristine compiled bytecode. -/
theorem spliceOccurrences_ok_length (main ovm : String) :
    ∀ (refs ovmRefs : List ImmRef) (code c : String),
    spliceOccurrences main ovm refs ovmRefs code = .ok c →
    c.length = code.length ∨ c.length = main.length := by
  intro refs
  induction refs with
  | nil =>
    intro ovmRefs code c h
    simp only [spliceOccurrences, Except.ok.injEq] at h
    subst h
    exact Or.inl rfl
  | cons ref rest ih =>
    intro ovmRefs code c h
    cases ovmRefs with
    | nil => simp [spliceOccurrences] at h
    | cons ovmRef orest =>
      simp only [spliceOccurrences] at h
      cases hstep : spliceStep main ovm ref ovmRef with
      | error e => rw [hstep, except_error_bind] at h; exact absurd h (by simp)
      | ok bytecode =>
        rw [hstep, except_ok_bind] at h
        have hlen := spliceStep_ok_length main ovm ref ovmRef bytecode hstep
        rcases ih orest bytecode c h with h1 | h2
        · exact Or.inr (h1.trans hlen)
        · exact Or.inr h2

/-- If some position carried by both occurrence lists has mismatched range
lengths, the inner occurrence loop fails. -/
theorem spliceOccurrences_mismatch_isError (main ovm : String) :
    ∀ (refs ovmRefs : List ImmRef) (code : String) (i : Nat)
    (h1 : i < refs.length) (h2 : i < ovmRefs.length),
    (refs.get ⟨i, h1⟩).length ≠ (ovmRefs.get ⟨i, h2⟩).length →
    ∃ e, spliceOccurrences main ovm refs ovmRefs code = .error e := by
  intro refs
  induction refs with
  | nil => intro ovmRefs code i h1; exact absurd h1 (by simp)
  | cons ref rest ih =>
    intro ovmRefs code i h1 h2 hne
    cases ovmRefs with
    | nil => exact absurd h2 (by simp)
    | cons ovmRef orest =>
      cases i with
      | zero =>
        have hstep := spliceStep_mismatch_error main ovm ref ovmRef (by simpa using hne)
        exact ⟨"length mismatch", by simp [spliceOccurrences, hstep]⟩
      | succ j =>
        cases hstep : spliceStep main ovm ref ovmRef with
        | error e =>
          exact ⟨e, by simp [spliceOccurrences, hstep]⟩
        | ok bytecode =>
          obtain ⟨e, he⟩ := ih orest bytecode j (by simpa using h1)
            (by simpa using h2) (by simpa using hne)
          exact ⟨e, by simp [spliceOccurrences, hstep, he]⟩

/-- A successful run of the outer loop over named immutables returns either
the incoming working string untouched or a string of the length of the
pristine compiled bytecode. -/
theorem spliceAllRefs_ok_length (main ovm : String)
    (ovmRefs : List (String × List ImmRef)) :
    ∀ (entries : List (String × List ImmRef)) (code c : String),
    spliceAllRefs main ovm ovmRefs entries code = .ok c →
    c.length = code.length ∨ c.length = main.length := by
  intro entries
  induction entries with
  | nil =>
    intro code c h
    simp only [spliceAllRefs, Except.ok.injEq] at h
    subst h
    exact Or.inl rfl
  | cons p rest ih =>
    intro code c h
    obtain ⟨key, value⟩ := p
    cases hlook : ovmRefs.lookup key with
    | none => simp [spliceAllRefs, hlook] at h
    | some ovmValue =>
      simp only [spliceAllRefs, hlook] at h
      cases hocc : spliceOccurrences main ovm value ovmValue code with
      | error e => rw [hocc, except_error_bind] at h; exact absurd h (by simp)
      | ok code' =>
        rw [hocc, except_ok_bind] at h
        rcases ih code' c h with h1 | h2
        · rcases spliceOccurrences_ok_length main ovm value ovmValue code code' hocc with g1 | g2
          · exact Or.inl (h1.trans g1)
          · exact Or.inr (h1.trans g2)
        · exact Or.inr h2

/-- If the inner loop fails for an entry of the outer loop, or the key of
an entry is missing from the historical reference table, the outer loop
fails. -/
theorem spliceAllRefs_entry_isError (main ovm : String)
    (ovmRefs : List (String × List ImmRef)) :
    ∀ (entries : List (String × List ImmRef)) (code : String)
    (p : String × List ImmRef), p ∈ entries →
    (ovmRefs.lookup p.1 = none ∨
      (∀ ovmValue, ovmRefs.lookup p.1 = some ovmValue →
        ∀ c, ∃ e, spliceOccurrences main ovm p.2 ovmValue c = .error e)) →
    ∃ e, spliceAllRefs main ovm ovmRefs entries code = .error e := by
  intro entries
  induction entries with
  | nil => intro code p hp; exact absurd hp (by simp)
  | cons q rest ih =>
    intro code p hp hcase
    obtain ⟨key, value⟩ := q
    rcases List.mem_cons.mp hp with rfl | hmem
    · rcases hcase with hnone | hocc
      · exact ⟨"cannot find ast in ovm compiler output",
          by simp [spliceAllRefs, hnone]⟩
      · cases hlook : ovmRefs.lookup key with
        | none => exact ⟨"cannot find ast in ovm compiler output",
            by simp [spliceAllRefs, hlook]⟩
        | some ovmValue =>
          obtain ⟨e, he⟩ := hocc ovmValue hlook code
          exact ⟨e, by simp [spliceAllRefs, hlook, he]⟩
    · cases hlook : ovmRefs.lookup key with
      | none => exact ⟨"cannot find ast in ovm compiler output",
          by simp [spliceAllRefs, hlook]⟩
      | some ovmValue =>
        cases hstep : spliceOccurrences main ovm value ovmValue code with
        | error e => exact ⟨e, by simp [spliceAllRefs, hlook, hstep]⟩
        | ok code' =>
          obtain ⟨e, he⟩ := ih code' p hmem hcase
          exact ⟨e, by simp [spliceAllRefs, hlook, hstep, he]⟩

/-- C1, refutation by evaluation: a contract with one named immutable with
two occurrences.  The new compiled bytecode is 0011223344 and the paired
historical bytecode aabbccddee, with identical occurrence ranges at offsets
0 and 4, each of length 2.  Sequential splicing as stated by the claim
would give aa11cc3344, but the loop body re-reads the pristine compiled
bytecode each iteration, so the first splice is lost: the final bytecode is
0011cc3344, and the range of the first occurrence in the final bytecode is
00, the bytes of the new compilation, not aa, the bytes extracted from the
historical compilation. -/
theorem C1_relocation_drops_earlier_splices :
    spliceAllRefs ("0011223344") "aabbccddee"
        [("5", [⟨0, 2⟩, ⟨4, 2⟩])] [("5", [⟨0, 2⟩, ⟨4, 2⟩])] "0011223344"
      = .ok ("0011cc3344") ∧
    ("0011cc3344" : String).length = ("0011223344" : String).length ∧
    jsSlice ("0011cc3344") 0 2 ≠ jsSlice ("aabbccddee") 0 2 ∧
    ("0011cc3344" : String) ≠ "aa11cc3344" := by
  refine ⟨by rfl, by rfl, by decide, by decide⟩

/-- C2: each integrity condition of the relocation loop is fatal: a named
immutable missing from the historical reference table makes the loop fail;
a length mismatch between corresponding ranges at the same position makes
the loop fail; and no successful run can return a bytecode whose length
differs from the length of the pre-splice compiled bytecode it started
from. -/
theorem C2_relocation_error_conditions :
    (∀ (main ovm : String) (ovmRefs entries : List (String × List ImmRef))
        (code : String) (p : String × List ImmRef),
        p ∈ entries → ovmRefs.lookup p.1 = none →
        ∃ e, spliceAllRefs main ovm ovmRefs entries code = .error e) ∧
    (∀ (main ovm : String) (ovmRefs entries : List (String × List ImmRef))
        (code : String) (p : String × List ImmRef) (ovmValue : List ImmRef)
        (i : Nat), p ∈ entries → ovmRefs.lookup p.1 = some ovmValue →
        ∀ (h1 : i < p.2.length) (h2 : i < ovmValue.length),
        (p.2.get ⟨i, h1⟩).length ≠ (ovmValue.get ⟨i, h2⟩).length →
        ∃ e, spliceAllRefs main ovm ovmRefs entries code = .error e) ∧
    (∀ (main ovm : String) (ovmRefs entries : List (String × List ImmRef))
        (c : String),
        spliceAllRefs main ovm ovmRefs entries main = .ok c →
        c.length = main.length) := by
  refine ⟨?_, ?_, ?_⟩
  · intro main ovm ovmRefs entries code p hp hnone
    exact spliceAllRefs_entry_isError main ovm ovmRefs entries code p hp (Or.inl hnone)
  · intro main ovm ovmRefs entries code p ovmValue i hp hsome h1 h2 hne
    refine spliceAllRefs_entry_isError main ovm ovmRefs entries code p hp (Or.inr ?_)
    intro ov hov c
    rw [hsome] at hov
    obtain rfl := (Option.some.injEq _ _).mp hov
    exact spliceOccurrences_mismatch_isError main ovm p.2 ovmValue c i h1 h2 hne
  · intro main ovm ovmRefs entries c h
    rcases spliceAllRefs_ok_length main ovm ovmRefs entries main c h with h1 | h2
    · exact h1
    · exact h2

/-- Witness for C2 at concrete inputs: a missing historical key, a range
length mismatch at position 0, and a successful two-splice run whose result
keeps the pre-splice length. -/
theorem C2_relocation_error_conditions_witness :
    (∃ e, spliceAllRefs ("00112233") "aabbccdd" []
        [("7", [⟨0, 2⟩])] "00112233" = .error e) ∧
    (∃ e, spliceAllRefs ("00112233") "aabbccdd" [("7", [⟨0, 4⟩])]
        [("7", [⟨0, 2⟩])] "00112233" = .error e) ∧
    ("0011cc3344" : String).length = ("0011223344" : String).length := by
  refine ⟨?_, ?_, ?_⟩
  · exact C2_relocation_error_conditions.1 ("00112233") "aabbccdd" []
      [("7", [⟨0, 2⟩])] "00112233" ("7", [⟨0, 2⟩]) (by simp) rfl
  · exact C2_relocation_error_conditions.2.1 ("00112233") "aabbccdd"
      [("7", [⟨0, 4⟩])] [("7", [⟨0, 2⟩])] "00112233" ("7", [⟨0, 2⟩])
      [⟨0, 4⟩] 0 (by simp) rfl (by decide) (by decide) (by decide)
  · exact C2_relocation_error_conditions.2.2 ("0011223344") "aabbccddee"
      [("5", [⟨0, 2⟩, ⟨4, 2⟩])] [("5", [⟨0, 2⟩, ⟨4, 2⟩])] "0011cc3344" rfl

/-!  C3: the error cases of the VERIFIED handler lookup stage. -/

/-- C3, counterexample to the claim as stated: when the recorded compiler
version has no solc mapping, the raised error carries the compiler version
only; the address of the offending account (0xaa here) does not occur in
the message. -/
theorem C3_counterexample_version_error_lacks_address :
    verifiedLookup (fun _ => none) (fun _ => none) (fun _ _ => .null)
        [{ contractAddress := "0xaa", sourceCode := "x", compilerVersion := "v9",
           optimizationUsed := "0", runs := "200", contractName := "C" }]
        { address := "0xaa", nonce := .num 0, balance := "0",
          codeHash := "c", root := "r" }
      = .error ("Unable to find solc version v9") ∧
    ¬ ("0xaa" : String).data <:+: ("Unable to find solc version v9" : String).data := by
  exact ⟨rfl, by decide⟩

/-- C3, amended: the VERIFIED handler lookup stage fails loudly in all four
cases; the error carries the offending address when the account is absent
from the archived dataset, when the compiler response has no compiled
output, and when the consulted file entry exists but the contract name is
not found under it; in the unknown-compiler-version case the error carries
the recorded compiler version instead of the address. -/
theorem C3_verified_lookup_errors :
    (∀ (parse : String → Option JsVal) (versionsToSolc : String → Option String)
        (compile : String → JsVal → JsVal)
        (etherscanDump : List EtherscanContract) (account : Account),
        etherscanDump.find? (fun ec => ec.contractAddress == account.address) = none →
        verifiedLookup parse versionsToSolc compile etherscanDump account
          = .error ("Unable to find " ++ account.address ++ " in etherscan dump")) ∧
    (∀ (parse : String → Option JsVal) (versionsToSolc : String → Option String)
        (compile : String → JsVal → JsVal)
        (etherscanDump : List EtherscanContract) (account : Account)
        (contract : EtherscanContract),
        etherscanDump.find? (fun ec => ec.contractAddress == account.address)
          = some contract →
        versionsToSolc contract.compilerVersion = none →
        verifiedLookup parse versionsToSolc compile etherscanDump account
          = .error ("Unable to find solc version " ++ contract.compilerVersion)) ∧
    (∀ (parse : String → Option JsVal) (versionsToSolc : String → Option String)
        (compile : String → JsVal → JsVal)
        (etherscanDump : List EtherscanContract) (account : Account)
        (contract : EtherscanContract) (version : String),
        etherscanDump.find? (fun ec => ec.contractAddress == account.address)
          = some contract →
        versionsToSolc contract.compilerVersion = some version →
        jsTruthyO (jsGet (compile version (solcInput parse contract)) ("contracts"))
          = false →
        verifiedLookup parse versionsToSolc compile etherscanDump account
          = .error ("Cannot compile " ++ account.address)) ∧
    (∀ (parse : String → Option JsVal) (versionsToSolc : String → Option String)
        (compile : String → JsVal → JsVal)
        (etherscanDump : List EtherscanContract) (account : Account)
        (contract : EtherscanContract) (version : String)
        (contractsVal fileVal : JsVal),
        etherscanDump.find? (fun ec => ec.contractAddress == account.address)
          = some contract →
        versionsToSolc contract.compilerVersion = some version →
        jsGet (compile version (solcInput parse contract)) ("contracts")
          = some contractsVal →
        jsTruthy contractsVal = true →
        jsGet contractsVal (consultedFileKey contract) = some fileVal →
        jsTruthyO (jsGet fileVal contract.contractName) = false →
        verifiedLookup parse versionsToSolc compile etherscanDump account
          = .error ("Contract filename mismatch: " ++ account.address)) := by
  refine ⟨?_, ?_, ?_, ?_⟩
  · intro parse versionsToSolc compile etherscanDump account hfind
    simp [verifiedLookup, hfind]
  · intro parse versionsToSolc compile etherscanDump account contract hfind hver
    simp [verifiedLookup, hfind, hver]
  · intro parse versionsToSolc compile etherscanDump account contract version
      hfind hver hcon
    have haddr : contract.contractAddress = account.address := by
      have := List.find?_some hfind
      exact eq_of_beq this
    simp [verifiedLookup, hfind, hver, hcon, haddr]
  · intro parse versionsToSolc compile etherscanDump account contract version
      contractsVal fileVal hfind hver hcon htru hfile hmain
    have haddr : contract.contractAddress = account.address := by
      have := List.find?_some hfind
      exact eq_of_beq this
    simp only [jsTruthyO] at hmain
    simp [verifiedLookup, hfind, hver, hcon, htru, jsIdx, hfile,
      jsTruthyO, haddr, hmain]

/-- Witness for C3 at concrete data: the four error cases realised. -/
theorem C3_verified_lookup_errors_witness :
    verifiedLookup (fun _ => none) (fun _ => none) (fun _ _ => .null) []
        { address := "0xaa", nonce := .num 0, balance := "0",
          codeHash := "c", root := "r" }
      = .error ("Unable to find 0xaa in etherscan dump") ∧
    verifiedLookup (fun _ => none) (fun _ => none) (fun _ _ => .null)
        [{ contractAddress := "0xaa", sourceCode := "x", compilerVersion := "v9",
           optimizationUsed := "0", runs := "200", contractName := "C" }]
        { address := "0xaa", nonce := .num 0, balance := "0",
          codeHash := "c", root := "r" }
      = .error ("Unable to find solc version v9") ∧
    verifiedLookup (fun _ => none) (fun _ => some ("s")) (fun _ _ => .obj [])
        [{ contractAddress := "0xaa", sourceCode := "x", compilerVersion := "v9",
           optimizationUsed := "0", runs := "200", contractName := "C" }]
        { address := "0xaa", nonce := .num 0, balance := "0",
          codeHash := "c", root := "r" }
      = .error ("Cannot compile 0xaa") ∧
    verifiedLookup (fun _ => none) (fun _ => some ("s"))
        (fun _ _ => .obj [("contracts", .obj [("file", .obj [])])])
        [{ contractAddress := "0xaa", sourceCode := "x", compilerVersion := "v9",
           optimizationUsed := "0", runs := "200", contractName := "C" }]
        { address := "0xaa", nonce := .num 0, balance := "0",
          codeHash := "c", root := "r" }
      = .error ("Contract filename mismatch: 0xaa") := by
  refine ⟨?_, ?_, ?_, ?_⟩
  · exact C3_verified_lookup_errors.1 (fun _ => none) (fun _ => none)
      (fun _ _ => .null) []
      { address := "0xaa", nonce := .num 0, balance := "0",
        codeHash := "c", root := "r" } rfl
  · exact C3_verified_lookup_errors.2.1 (fun _ => none) (fun _ => none)
      (fun _ _ => .null)
      [{ contractAddress := "0xaa", sourceCode := "x", compilerVersion := "v9",
         optimizationUsed := "0", runs := "200", contractName := "C" }]
      { address := "0xaa", nonce := .num 0, balance := "0",
        codeHash := "c", root := "r" }
      { contractAddress := "0xaa", sourceCode := "x", compilerVersion := "v9",
        optimizationUsed := "0", runs := "200", contractName := "C" } rfl rfl
  · exact C3_verified_lookup_errors.2.2.1 (fun _ => none) (fun _ => some ("s"))
      (fun _ _ => .obj [])
      [{ contractAddress := "0xaa", sourceCode := "x", compilerVersion := "v9",
         optimizationUsed := "0", runs := "200", contractName := "C" }]
      { address := "0xaa", nonce := .num 0, balance := "0",
        codeHash := "c", root := "r" }
      { contractAddress := "0xaa", sourceCode := "x", compilerVersion := "v9",
        optimizationUsed := "0", runs := "200", contractName := "C" }
      "s" rfl rfl rfl
  · exact C3_verified_lookup_errors.2.2.2 (fun _ => none) (fun _ => some ("s"))
      (fun _ _ => .obj [("contracts", .obj [("file", .obj [])])])
      [{ contractAddress := "0xaa", sourceCode := "x", compilerVersion := "v9",
         optimizationUsed := "0", runs := "200", contractName := "C" }]
      { address := "0xaa", nonce := .num 0, balance := "0",
        codeHash := "c", root := "r" }
      { contractAddress := "0xaa", sourceCode := "x", compilerVersion := "v9",
        optimizationUsed := "0", runs := "200", contractName := "C" }
      "s" (.obj [("file", .obj [])]) (.obj []) rfl rfl rfl rfl rfl rfl

/-!  C7: what the validator actually guarantees. -/

/-- A lower-case hexadecimal string in the sense of the claim wording: an
optional 0x marker followed by lower-case hexadecimal digits.  This
definition follows the words of the specification, for comparison with
what the validator actually enforces. -/
def isLowerHexSpec (s : String) : Bool :=
  (if jsStartsWith s ("0x") then s.data.drop 2 else s.data).all
    (fun c => hexLowerChars.contains c)

/-- Sequencing two Except computations succeeds only when both do. -/
theorem except_seq_ok {α β : Type} (step : Except String α)
    (rest : α → Except String β) (out : β)
    (h : (step >>= rest) = .ok out) :
    ∃ mid, step = .ok mid ∧ rest mid = .ok out := by
  cases step
  case error e => rw [except_error_bind] at h; exact absurd h (by simp)
  case ok mid => exact ⟨mid, rfl, by rwa [except_ok_bind] at h⟩

/-- The address assertion only certifies stability under lower-casing. -/
theorem checkAddressLower_ok (address : String)
    (h : checkAddressLower address = .ok ()) : jsToLower address = address := by
  unfold checkAddressLower at h
  split at h
  next hc => exact absurd h (by simp)
  next hc => simpa using hc

/-- The nonce assertion certifies a numeric runtime type. -/
theorem checkNonceNumber_ok (account : Account)
    (h : checkNonceNumber account = .ok ()) : account.nonce.isNum = true := by
  unfold checkNonceNumber at h
  split at h
  next hc => exact absurd h (by simp)
  next hc => simpa using hc

/-- The codeHash assertion only certifies stability under lower-casing. -/
theorem checkCodeHashLower_ok (account : Account)
    (h : checkCodeHashLower account = .ok ()) :
    jsToLower account.codeHash = account.codeHash := by
  unfold checkCodeHashLower at h
  split at h
  next hc => exact absurd h (by simp)
  next hc => simpa using hc

/-- The root assertion only certifies stability under lower-casing. -/
theorem checkRootLower_ok (account : Account)
    (h : checkRootLower account = .ok ()) :
    jsToLower account.root = account.root := by
  unfold checkRootLower at h
  split at h
  next hc => exact absurd h (by simp)
  next hc => simpa using hc

/-- The code assertion only certifies stability under lower-casing of a
present code field. -/
theorem checkCodeLower_ok (account : Account)
    (h : checkCodeLower account = .ok ()) :
    ∀ c, account.code = some c → jsToLower c = c := by
  intro c hc
  unfold checkCodeLower at h
  rw [hc] at h
  split at h
  next f hcond =>
    injection hcond with hfc
    subst hfc
    split at h
    next h2 => exact absurd h (by simp)
    next h2 => simpa using h2
  next hcond => exact absurd hcond (by simp)

/-- The balance assertion forces the string 0 outside the exempt range. -/
theorem checkBalanceZero_ok (address : String) (account : Account)
    (h : checkBalanceZero address account = .ok ())
    (hout : jsStartsWith address precompileMarker = false) :
    account.balance = "0" := by
  unfold checkBalanceZero at h
  rw [hout] at h
  simp only [Bool.not_false, if_true] at h
  split at h
  next hc => exact absurd h (by simp)
  next hc => simpa using hc

/-- The storage loop only certifies stability under lower-casing of every
key and value. -/
theorem checkStorageEntries_ok :
    ∀ l, checkStorageEntries l = .ok () → ∀ kv ∈ l,
      jsToLower kv.1 = kv.1 ∧ jsToLower kv.2 = kv.2 := by
  intro l
  induction l with
  | nil => intro h kv hkv; exact absurd hkv (by simp)
  | cons q rest ih =>
    intro h kv hkv
    obtain ⟨sk, sv⟩ := q
    unfold checkStorageEntries at h
    split at h
    next hc => exact absurd h (by simp)
    next hc =>
      split at h
      next hc2 => exact absurd h (by simp)
      next hc2 =>
        rcases List.mem_cons.mp hkv with rfl | hmem
        · exact ⟨by simpa using hc, by simpa using hc2⟩
        · exact ih h kv hmem

/-- The storage assertion for a present storage field. -/
theorem checkStorageLower_ok (account : Account)
    (h : checkStorageLower account = .ok ()) :
    ∀ st, account.storage = some st → ∀ kv ∈ st,
      jsToLower kv.1 = kv.1 ∧ jsToLower kv.2 = kv.2 := by
  intro st hst
  unfold checkStorageLower at h
  rw [hst] at h
  exact checkStorageEntries_ok st h

/-- Everything a passing per-account check certifies. -/
theorem checkAccount_ok_props (address : String) (account : Account)
    (h : checkAccount address account = .ok ()) :
    jsToLower address = address ∧
    account.nonce.isNum = true ∧
    jsToLower account.codeHash = account.codeHash ∧
    jsToLower account.root = account.root ∧
    (∀ c, account.code = some c → jsToLower c = c) ∧
    (jsStartsWith address precompileMarker = false → account.balance = "0") ∧
    (∀ st, account.storage = some st → ∀ kv ∈ st,
      jsToLower kv.1 = kv.1 ∧ jsToLower kv.2 = kv.2) := by
  unfold checkAccount at h
  obtain ⟨⟨⟩, h1, h⟩ := except_seq_ok _ _ _ h
  obtain ⟨⟨⟩, h2, h⟩ := except_seq_ok _ _ _ h
  obtain ⟨⟨⟩, h3, h⟩ := except_seq_ok _ _ _ h
  obtain ⟨⟨⟩, h4, h⟩ := except_seq_ok _ _ _ h
  obtain ⟨⟨⟩, h5, h⟩ := except_seq_ok _ _ _ h
  obtain ⟨⟨⟩, h6, h7⟩ := except_seq_ok _ _ _ h
  exact ⟨checkAddressLower_ok address h1,
    checkNonceNumber_ok account h2,
    checkCodeHashLower_ok account h3,
    checkRootLower_ok account h4,
    checkCodeLower_ok account h5,
    fun hout => checkBalanceZero_ok address account h6 hout,
    checkStorageLower_ok account h7⟩

/-- A passing whole-dump check means every entry passed its per-account
check. -/
theorem checkStateDump_go_ok :
    ∀ l, checkStateDumpRoot.go l = .ok () → ∀ p ∈ l,
      checkAccount p.1 p.2 = .ok () := by
  intro l
  induction l with
  | nil => intro h p hp; exact absurd hp (by simp)
  | cons q rest ih =>
    intro h p hp
    obtain ⟨key, acct⟩ := q
    simp only [checkStateDumpRoot.go] at h
    obtain ⟨⟨⟩, h1, h2⟩ := except_seq_ok _ _ _ h
    rcases List.mem_cons.mp hp with rfl | hmem
    · exact h1
    · exact ih h2 p hmem

/-- C7, counterexample to the claim as stated: the validator only compares
each string with its lower-cased form and never checks that the characters
are hexadecimal, so a dump whose codeHash is zz (lower-case, not hex)
passes the validator. -/
theorem C7_counterexample_lowercase_not_hex :
    checkStateDumpRoot
      { root := "rt",
        accounts := [("0xab",
          { address := "0xab", nonce := .num 0, balance := "0",
            codeHash := "zz", root := "aa" })] } = .ok () ∧
    isLowerHexSpec ("zz") = false :=
  ⟨rfl, rfl⟩

/-- C7, amended: if the validator returns without raising then for every
account of the dump the address, codeHash, storage root, code (when
present) and all storage keys and values are unchanged by lower-casing
(hex-ness is not checked), the nonce is numeric at runtime, and the
balance is the string 0 unless the address lies in the reserved precompile
range. -/
theorem C7_validator_guarantees (dump : StateDumpRootT)
    (h : checkStateDumpRoot dump = .ok ()) :
    ∀ p ∈ dump.accounts,
      jsToLower p.1 = p.1 ∧
      p.2.nonce.isNum = true ∧
      jsToLower p.2.codeHash = p.2.codeHash ∧
      jsToLower p.2.root = p.2.root ∧
      (∀ c, p.2.code = some c → jsToLower c = c) ∧
      (jsStartsWith p.1 precompileMarker = false → p.2.balance = "0") ∧
      (∀ st, p.2.storage = some st → ∀ kv ∈ st,
        jsToLower kv.1 = kv.1 ∧ jsToLower kv.2 = kv.2) := by
  intro p hp
  have hacc := checkStateDump_go_ok dump.accounts
    (by simpa [checkStateDumpRoot] using h) p hp
  exact checkAccount_ok_props p.1 p.2 hacc

/-- Witness for C7 at a one-account dump that the validator accepts. -/
theorem C7_validator_guarantees_witness :
    jsToLower ("0xcd") = "0xcd" ∧
    JsVal.isNum (.num 5) = true ∧
    jsToLower ("ab") = "ab" ∧
    jsToLower ("cd") = "cd" ∧
    (∀ c, (some ("ee") : Option String) = some c → jsToLower c = c) ∧
    (jsStartsWith ("0xcd") precompileMarker = false → "0" = "0") ∧
    (∀ st, (some [("aa", "bb")] : Option (List (String × String))) = some st →
      ∀ kv ∈ st, jsToLower kv.1 = kv.1 ∧ jsToLower kv.2 = kv.2) :=
  C7_validator_guarantees
    { root := "rt",
      accounts := [("0xcd",
        { address := "0xcd", nonce := .num 5, balance := "0",
          codeHash := "ab", root := "cd", code := some ("ee"),
          storage := some [("aa", "bb")] })] }
    rfl
    ("0xcd",
      { address := "0xcd", nonce := .num 5, balance := "0",
        codeHash := "ab", root := "cd", code := some ("ee"),
        storage := some [("aa", "bb")] })
    (by simp)

/-!  C10: the exact extent of the balance exemption. -/

/-- A canonical address string per the data model: 42 characters, the 0x
marker, then lower-case hexadecimal digits. -/
def canonicalAddress (a : String) : Prop :=
  a.length = 42 ∧ jsStartsWith a ("0x") = true ∧
    ∀ c ∈ a.data.drop 2, c ∈ hexLowerChars

/-- The 256 canonical addresses obtained by appending two lower-case hex
digits to the 40-character zero marker. -/
def exemptCanonicalList : List String :=
  hexLowerChars.flatMap
    (fun c1 => hexLowerChars.map (fun c2 => (precompileMarker.push c1).push c2))

/-- Two strings with the same character data are equal. -/
theorem string_eq_of_data {a b : String} (h : a.data = b.data) : a = b := by
  cases a; cases b; exact congrArg String.mk h

/-- Character data of a push. -/
theorem data_push (s : String) (c : Char) : (s.push c).data = s.data ++ [c] := by
  cases s; simp [String.push]

/-- Character data of the zero marker. -/
theorem precompileMarker_data :
    precompileMarker.data = '0' :: 'x' :: List.replicate 38 '0' := by decide

/-- A list is a Boolean prefix of itself followed by anything. -/
theorem isPrefixOf_append_self (l t : List Char) :
    l.isPrefixOf (l ++ t) = true :=
  List.isPrefixOf_iff_prefix.mpr ⟨t, rfl⟩

/-- A 42-character string that starts with the 40-character zero marker is
the marker followed by exactly two characters. -/
theorem exempt_decomp (a : String) (hlen : a.length = 42)
    (hx : jsStartsWith a precompileMarker = true) :
    ∃ c1 c2, a.data = precompileMarker.data ++ [c1, c2] := by
  unfold jsStartsWith at hx
  obtain ⟨t, ht⟩ := List.isPrefixOf_iff_prefix.mp hx
  have h42 : a.data.length = 42 := hlen
  rw [← ht, List.length_append] at h42
  have h40 : precompileMarker.data.length = 40 := by decide
  rw [h40] at h42
  have ht2 : t.length = 2 := by omega
  cases t with
  | nil => simp at ht2
  | cons c1 t1 =>
    cases t1 with
    | nil => simp at ht2
    | cons c2 t2 =>
      cases t2 with
      | nil => exact ⟨c1, c2, ht.symm⟩
      | cons c3 t3 => simp at ht2

/-- Appending two characters to the marker is injective in the pair of
characters. -/
theorem push_push_inj (c1 c2 c1' c2' : Char)
    (h : (precompileMarker.push c1).push c2 = (precompileMarker.push c1').push c2') :
    c1 = c1' ∧ c2 = c2' := by
  have hd : ((precompileMarker.push c1).push c2).data
      = ((precompileMarker.push c1').push c2').data := by rw [h]
  rw [data_push, data_push, data_push, data_push] at hd
  have h2 : [c1] ++ [c2] = [c1'] ++ [c2'] := by
    refine @List.append_cancel_left _ precompileMarker.data _ _ ?_
    simpa using hd
  simp at h2
  exact h2

/-- The 256 candidate addresses are pairwise distinct. -/
theorem exemptCanonicalList_nodup : exemptCanonicalList.Nodup := by
  have hhex : hexLowerChars.Nodup := by decide
  rw [exemptCanonicalList, List.nodup_flatMap]
  constructor
  · intro c1 _
    refine List.Nodup.map ?_ hhex
    intro c2 c2' h
    exact (push_push_inj c1 c2 c1 c2' h).2
  · refine hhex.imp ?_
    intro a b hab
    intro x hxa hxb
    obtain ⟨c2, _, hxa'⟩ := List.mem_map.mp hxa
    obtain ⟨c2', _, hxb'⟩ := List.mem_map.mp hxb
    exact hab (push_push_inj a c2 b c2' (hxa'.trans hxb'.symm)).1

/-- C10: on canonical addresses the balance exemption of the validator
holds exactly for the 40-character zero marker followed by two lower-case
hex digits; there are exactly 256 such addresses; every account outside
the set must carry the balance string 0 to pass the per-account check; and
inside the set the per-account check does not depend on the balance at
all. -/
theorem C10_balance_exemption_range :
    (∀ a : String, canonicalAddress a →
      (jsStartsWith a precompileMarker = true ↔
        (a.data.drop 2).take 38 = List.replicate 38 '0')) ∧
    (∀ a : String, canonicalAddress a →
      (jsStartsWith a precompileMarker = true ↔ a ∈ exemptCanonicalList)) ∧
    exemptCanonicalList.length = 256 ∧
    exemptCanonicalList.Nodup ∧
    (∀ (address : String) (account : Account),
      checkAccount address account = .ok () →
      jsStartsWith address precompileMarker = false →
      account.balance = "0") ∧
    (∀ (address : String) (account : Account) (b b' : String),
      jsStartsWith address precompileMarker = true →
      checkAccount address { account with balance := b }
        = checkAccount address { account with balance := b' }) := by
  have hz38 : (List.replicate 38 '0').length = 38 := by simp
  refine ⟨?_, ?_, ?_, ?_, ?_, ?_⟩
  · intro a ⟨hlen, hx0, _⟩
    constructor
    · intro hx
      obtain ⟨c1, c2, hdata⟩ := exempt_decomp a hlen hx
      rw [hdata, precompileMarker_data]
      simp only [List.cons_append, List.drop_succ_cons, List.drop_zero]
      exact List.take_left' hz38
    · intro htake
      unfold jsStartsWith at hx0 ⊢
      obtain ⟨t, ht⟩ := List.isPrefixOf_iff_prefix.mp hx0
      have hsplit := List.take_append_drop 38 (a.data.drop 2)
      rw [htake] at hsplit
      have hdata : a.data = precompileMarker.data ++ (a.data.drop 2).drop 38 := by
        rw [precompileMarker_data]
        have h0x : ("0x" : String).data = ['0', 'x'] := rfl
        rw [h0x] at ht
        rw [← ht] at hsplit ⊢
        simp only [List.cons_append, List.nil_append, List.drop_succ_cons,
          List.drop_zero] at hsplit ⊢
        rw [hsplit]
      rw [hdata]
      exact isPrefixOf_append_self _ _
  · intro a ⟨hlen, hx0, hhex⟩
    constructor
    · intro hx
      obtain ⟨c1, c2, hdata⟩ := exempt_decomp a hlen hx
      have hc1 : c1 ∈ hexLowerChars := by
        apply hhex
        rw [hdata, precompileMarker_data]
        simp
      have hc2 : c2 ∈ hexLowerChars := by
        apply hhex
        rw [hdata, precompileMarker_data]
        simp
      refine List.mem_flatMap.mpr ⟨c1, hc1, List.mem_map.mpr ⟨c2, hc2, ?_⟩⟩
      apply string_eq_of_data
      rw [data_push, data_push, hdata]
      simp
    · intro hmem
      obtain ⟨c1, hc1, hmap⟩ := List.mem_flatMap.mp hmem
      obtain ⟨c2, hc2, ha⟩ := List.mem_map.mp hmap
      unfold jsStartsWith
      rw [← ha, data_push, data_push]
      have happ : precompileMarker.data ++ [c1] ++ [c2]
          = precompileMarker.data ++ [c1, c2] := by simp
      rw [happ]
      exact isPrefixOf_append_self _ _
  · rw [exemptCanonicalList, List.length_flatMap]
    rfl
  · exact exemptCanonicalList_nodup
  · intro address account h hout
    exact (checkAccount_ok_props address account h).2.2.2.2.2.1 hout
  · intro address account b b' hin
    have hb : ∀ x : String,
        checkBalanceZero address { account with balance := x } = .ok () := by
      intro x
      simp [checkBalanceZero, hin]
    simp only [checkAccount, hb]
    rfl

/-- Witness for C10 at the canonical address ending in 42 (inside the
exemption) and at a plain short address (outside it). -/
theorem C10_balance_exemption_range_witness :
    jsStartsWith ("0x0000000000000000000000000000000000000042") precompileMarker
      = true ∧
    (("0x0000000000000000000000000000000000000042" : String).data.drop 2).take 38
      = List.replicate 38 '0' ∧
    ("0" : String) = "0" ∧
    checkAccount ("0x0000000000000000000000000000000000000042")
        { address := "0x0000000000000000000000000000000000000042",
          nonce := .num 0, balance := "7", codeHash := "c", root := "r" }
      = checkAccount ("0x0000000000000000000000000000000000000042")
        { address := "0x0000000000000000000000000000000000000042",
          nonce := .num 0, balance := "9", codeHash := "c", root := "r" } := by
  have hcanon : canonicalAddress ("0x0000000000000000000000000000000000000042") := by
    refine ⟨rfl, rfl, ?_⟩
    decide
  have hmem : "0x0000000000000000000000000000000000000042" ∈ exemptCanonicalList := by
    refine List.mem_flatMap.mpr ⟨'4', by decide, List.mem_map.mpr ⟨'2', by decide, ?_⟩⟩
    decide
  have hstart := (C10_balance_exemption_range.2.1 _ hcanon).mpr hmem
  refine ⟨hstart, (C10_balance_exemption_range.1 _ hcanon).mp hstart, ?_, ?_⟩
  · exact C10_balance_exemption_range.2.2.2.2.1 ("0xab")
      { address := "0xab", nonce := .num 0, balance := "0",
        codeHash := "ab", root := "ab" } rfl rfl
  · exact C10_balance_exemption_range.2.2.2.2.2
      "0x0000000000000000000000000000000000000042"
      { address := "0x0000000000000000000000000000000000000042",
        nonce := .num 0, balance := "0", codeHash := "c", root := "r" }
      "7" "9" hstart

/-!  C6: the dump reader. -/

/-- Assigning a key makes it readable. -/
theorem jsSet_lookup_self {β : Type} (m : List (String × β)) (k : String)
    (v : β) : (jsSet m k v).lookup k = some v := by
  induction m with
  | nil => simp [jsSet, List.lookup]
  | cons p rest ih =>
    obtain ⟨k', v'⟩ := p
    by_cases hk : k' = k
    · subst hk
      simp [jsSet, List.lookup]
    · have hb : (k' == k) = false := by simpa using hk
      have hb' : (k == k') = false := by
        simp only [beq_eq_false_iff_ne]
        exact fun h => hk h.symm
      simp [jsSet, hb, List.lookup, hb', ih]

/-- Assigning one key leaves every other key unchanged. -/
theorem jsSet_lookup_ne {β : Type} (m : List (String × β)) (k k' : String)
    (v : β) (hne : k' ≠ k) : (jsSet m k v).lookup k' = m.lookup k' := by
  induction m with
  | nil =>
    have hb : (k' == k) = false := by simpa using hne
    simp [jsSet, List.lookup, hb]
  | cons p rest ih =>
    obtain ⟨k0, v0⟩ := p
    by_cases hk : k0 = k
    · subst hk
      have hb : (k' == k0) = false := by simpa using hne
      simp [jsSet, List.lookup, hb]
    · have hb : (k0 == k) = false := by simpa using hk
      by_cases hk' : k' = k0
      · subst hk'
        simp [jsSet, hb, List.lookup]
      · have hb' : (k' == k0) = false := by simpa using hk'
        simp [jsSet, hb, List.lookup, hb', ih]

/-- A parse failure on any line aborts the dump read. -/
theorem readDumpLines_error (parse : String → Except String JsVal) :
    ∀ (lines : List String) (first : Bool) (dump : StateDumpRoot),
    (∃ l ∈ lines, ∃ e, parse l = .error e) →
    ∃ e', readDumpLines parse lines first dump = .error e' := by
  intro lines
  induction lines with
  | nil => intro first dump h; simp at h
  | cons l rest ih =>
    intro first dump h
    cases hp : parse l with
    | error e => exact ⟨e, by simp [readDumpLines, hp]⟩
    | ok v =>
      have hmem : ∃ l' ∈ rest, ∃ e, parse l' = .error e := by
        obtain ⟨l', hl', e, he⟩ := h
        rcases List.mem_cons.mp hl' with rfl | hmem
        · rw [hp] at he; exact absurd he (by simp)
        · exact ⟨l', hmem, e, he⟩
      cases first with
      | true =>
        obtain ⟨e', he'⟩ := ih false { dump with root := jsGet v ("root") } hmem
        exact ⟨e', by simp [readDumpLines, hp, he']⟩
      | false =>
        obtain ⟨e', he'⟩ := ih false
          { dump with
            accounts := jsSet dump.accounts (jsKeyOf (jsGet v ("address")))
              (jsDeleteField (jsDeleteField v ("address")) ("key")) } hmem
        exact ⟨e', by simp [readDumpLines, hp, he']⟩

/-- The account phase of the dump reader: every processed line is stored
under its address value with the address and key fields deleted; the root
and the entries of untouched keys are preserved. -/
theorem readDumpLines_spec (parse : String → Except String JsVal) :
    ∀ (rest : List String) (vs : List JsVal) (addrs : List String)
      (dump : StateDumpRoot),
    List.Forall₂ (fun line v => parse line = .ok v) rest vs →
    List.Forall₂ (fun v a => jsGet v ("address") = some (.str a)) vs addrs →
    ∃ d, readDumpLines parse rest false dump = .ok d ∧
      d.root = dump.root ∧
      (∀ key, key ∉ addrs →
        d.accounts.lookup key = dump.accounts.lookup key) ∧
      (addrs.Nodup → ∀ (i : Nat) (hi : i < addrs.length) (hv : i < vs.length),
        d.accounts.lookup (addrs.get ⟨i, hi⟩)
          = some (jsDeleteField
              (jsDeleteField (vs.get ⟨i, hv⟩) ("address")) ("key"))) := by
  intro rest vs addrs dump hf ha
  induction hf generalizing addrs dump with
  | nil =>
    cases ha
    exact ⟨dump, rfl, rfl, fun key _ => rfl,
      fun _ i hi => absurd hi (by simp)⟩
  | @cons line v lines' vs' hpv htail ih =>
    cases ha with
    | @cons _ a _ addrs' haddr hatail =>
      have hkey : jsKeyOf (jsGet v ("address")) = a := by
        rw [haddr]
        rfl
      obtain ⟨d, hrun, hroot, hout, hidx⟩ := ih addrs'
        { dump with
          accounts := jsSet dump.accounts (jsKeyOf (jsGet v ("address")))
            (jsDeleteField (jsDeleteField v ("address")) ("key")) }
        hatail
      refine ⟨d, ?_, hroot, ?_, ?_⟩
      · simp [readDumpLines, hpv, hrun]
      · intro key hkeymem
        have hk1 : key ∉ addrs' := fun hc => hkeymem (List.mem_cons_of_mem _ hc)
        have hk2 : key ≠ a := fun hc => hkeymem (hc ▸ List.mem_cons_self _ _)
        rw [hout key hk1]
        simp only [hkey]
        exact jsSet_lookup_ne dump.accounts a key _ hk2
      · intro hnodup i hi hv
        cases i with
        | zero =>
          have hnotin : a ∉ addrs' := (List.nodup_cons.mp hnodup).1
          rw [List.get]
          rw [hout a hnotin]
          simp only [hkey]
          exact jsSet_lookup_self dump.accounts a _
        | succ j =>
          have hj : j < addrs'.length := by simpa using hi
          have hjv : j < vs'.length := by simpa using hv
          have := hidx (List.nodup_cons.mp hnodup).2 j hj hjv
          simpa using this

/-- C6: the dump reader treats the first line as the root record, stores
every subsequent line under its address value with the address and key
fields removed, and a parse failure on any line (the read consumes the
whole stream) aborts with an error. -/
theorem C6_read_dump_file :
    (∀ (parse : String → Except String JsVal) (line0 : String) (v0 : JsVal)
        (rest : List String) (vs : List JsVal) (addrs : List String),
      parse line0 = .ok v0 →
      List.Forall₂ (fun line v => parse line = .ok v) rest vs →
      List.Forall₂ (fun v a => jsGet v ("address") = some (.str a)) vs addrs →
      addrs.Nodup →
      ∃ d, readDumpFile parse (line0 :: rest) = .ok d ∧
        d.root = jsGet v0 ("root") ∧
        ∀ (i : Nat) (hi : i < addrs.length) (hv : i < vs.length),
          d.accounts.lookup (addrs.get ⟨i, hi⟩)
            = some (jsDeleteField
                (jsDeleteField (vs.get ⟨i, hv⟩) ("address")) ("key"))) ∧
    (∀ (parse : String → Except String JsVal) (lines : List String),
      (∃ l ∈ lines, ∃ e, parse l = .error e) →
      ∃ e', readDumpFile parse lines = .error e') := by
  constructor
  · intro parse line0 v0 rest vs addrs h0 hf ha hnodup
    obtain ⟨d, hrun, hroot, _, hidx⟩ := readDumpLines_spec parse rest vs addrs
      { root := jsGet v0 ("root"), accounts := [] } hf ha
    refine ⟨d, ?_, by simpa using hroot, hidx hnodup⟩
    simp [readDumpFile, readDumpLines, h0, hrun]
  · intro parse lines h
    exact readDumpLines_error parse lines true _ h

/-- Witness for C6: a three-line dump (root record plus two accounts) read
with a concrete parse function, and a dump with an unparsable second line. -/
theorem C6_read_dump_file_witness :
    (∃ d, readDumpFile
        (fun s =>
          if s = "r" then .ok (.obj [("root", .str ("h"))])
          else if s = "l1" then
            .ok (.obj [("address", .str ("0xa")), ("key", .str ("k")),
              ("nonce", .num 1)])
          else if s = "l2" then
            .ok (.obj [("address", .str ("0xb")), ("balance", .str ("0"))])
          else .error ("parse error"))
        ["r", "l1", "l2"] = .ok d ∧
      d.root = some (.str ("h")) ∧
      d.accounts.lookup ("0xa") = some (.obj [("nonce", .num 1)]) ∧
      d.accounts.lookup ("0xb") = some (.obj [("balance", .str ("0"))])) ∧
    (∃ e', readDumpFile
        (fun s =>
          if s = "r" then .ok (.obj [("root", .str ("h"))])
          else if s = "l1" then
            .ok (.obj [("address", .str ("0xa")), ("key", .str ("k")),
              ("nonce", .num 1)])
          else if s = "l2" then
            .ok (.obj [("address", .str ("0xb")), ("balance", .str ("0"))])
          else .error ("parse error"))
        ["r", "nope"] = .error e') := by
  constructor
  · obtain ⟨d, hrun, hroot, hidx⟩ := C6_read_dump_file.1
      (fun s =>
        if s = "r" then .ok (.obj [("root", .str ("h"))])
        else if s = "l1" then
          .ok (.obj [("address", .str ("0xa")), ("key", .str ("k")),
            ("nonce", .num 1)])
        else if s = "l2" then
          .ok (.obj [("address", .str ("0xb")), ("balance", .str ("0"))])
        else .error ("parse error"))
      "r" (.obj [("root", .str ("h"))]) ["l1", "l2"]
      [.obj [("address", .str ("0xa")), ("key", .str ("k")), ("nonce", .num 1)],
       .obj [("address", .str ("0xb")), ("balance", .str ("0"))]]
      ["0xa", "0xb"]
      rfl (.cons rfl (.cons rfl .nil)) (.cons rfl (.cons rfl .nil))
      (by decide)
    exact ⟨d, hrun, hroot, hidx 0 (by decide) (by decide),
      hidx 1 (by decide) (by decide)⟩
  · exact C6_read_dump_file.2 _ ["r", "nope"]
      ⟨"nope", by simp, "parse error", rfl⟩

/-!  C8: the source resolver. -/

/-- Field lookup along a path of keys. -/
def jsGetPath (v : JsVal) : List String → Option JsVal
  | [] => some v
  | k :: ks =>
    match jsGet v k with
    | none => none
    | some w => jsGetPath w ks

/-- Replacing the sources of the base document erases the only place its
source text occurs, so the result depends only on the optimizer fields. -/
theorem solcBase_setSources_eq (c1 c2 : EtherscanContract)
    (hopt : c1.optimizationUsed = c2.optimizationUsed)
    (hruns : c1.runs = c2.runs) (j : JsVal) :
    jsSetField (solcBaseInput c1) ("sources") j
      = jsSetField (solcBaseInput c2) ("sources") j := by
  simp [solcBaseInput, jsSetField, jsSet, hopt, hruns]

/-- Two archive records whose stripped source texts parse to the same
non-null result resolve to the same compiler-input document, provided the
optimizer fields agree. -/
theorem solcInput_eq_of_same_parse (parse : String → Option JsVal)
    (c1 c2 : EtherscanContract)
    (hopt : c1.optimizationUsed = c2.optimizationUsed)
    (hruns : c1.runs = c2.runs) (j : JsVal)
    (h1 : parse (solcParseText c1.sourceCode) = some j)
    (h2 : parse (solcParseText c2.sourceCode) = some j)
    (hj : j ≠ .null) :
    solcInput parse c1 = solcInput parse c2 := by
  have hset := solcBase_setSources_eq c1 c2 hopt hruns
  cases j with
  | null => exact absurd rfl hj
  | bool b => simp [solcInput, h1, h2, hset]
  | num n => simp [solcInput, h1, h2, hset]
  | nan => simp [solcInput, h1, h2, hset]
  | str s => simp [solcInput, h1, h2, hset]
  | arr elems => simp [solcInput, h1, h2, hset]
  | obj fields => simp [solcInput, h1, h2, hset]

/-- C8: a double-brace-wrapped JSON source and its unwrapped equivalent
resolve to identical compiler-input documents; a source whose (stripped)
text does not parse resolves to the single-file base document whose sole
content under the default file key is exactly the raw stored string, with
the archived optimizer flag and run count copied into the settings; and in
the constructed multi-file case the parsed object becomes the sources and
the optimizer fields are copied as well. -/
theorem C8_solc_input_resolution :
    (∀ (parse : String → Option JsVal) (c : EtherscanContract) (j : JsVal),
      jsSubstr0 c.sourceCode 1 = "\x7b" →
      jsSubstr0 c.sourceCode 2 ≠ "\x7b\x7b" →
      parse c.sourceCode = some j → j ≠ .null →
      solcInput parse
          { c with sourceCode := "\x7b" ++ c.sourceCode ++ "\x7d" }
        = solcInput parse c) ∧
    (∀ (parse : String → Option JsVal) (c : EtherscanContract),
      parse (solcParseText c.sourceCode) = none →
      jsGet (solcInput parse c) ("language") = some (.str ("Solidity")) ∧
      jsGet (solcInput parse c) ("sources")
        = some (.obj [("file", .obj [("content", .str c.sourceCode)])]) ∧
      jsGetPath (solcInput parse c) ["settings", "optimizer", "enabled"]
        = some (.bool (c.optimizationUsed == "1")) ∧
      jsGetPath (solcInput parse c) ["settings", "optimizer", "runs"]
        = some (jsParseInt c.runs)) ∧
    (∀ (parse : String → Option JsVal) (c : EtherscanContract) (j : JsVal),
      parse (solcParseText c.sourceCode) = some j → j ≠ .null →
      jsTruthyO (jsGet j ("language")) = false →
      jsGet (solcInput parse c) ("sources") = some j ∧
      jsGetPath (solcInput parse c) ["settings", "optimizer", "enabled"]
        = some (.bool (c.optimizationUsed == "1")) ∧
      jsGetPath (solcInput parse c) ["settings", "optimizer", "runs"]
        = some (jsParseInt c.runs)) := by
  refine ⟨?_, ?_, ?_⟩
  · intro parse c j hu1 hu2 hp hj
    obtain ⟨t, ht⟩ : ∃ t, c.sourceCode.data = '\x7b' :: t := by
      have hd : (jsSubstr0 c.sourceCode 1).data = ("\x7b" : String).data := by
        rw [hu1]
      simp only [jsSubstr0] at hd
      cases hs : c.sourceCode.data with
      | nil => rw [hs] at hd; exact absurd hd (by simp)
      | cons c0 t0 =>
        rw [hs] at hd
        simp [List.take] at hd
        exact ⟨t0, by rw [hd]⟩
    have hwdata : ("\x7b" ++ c.sourceCode ++ "\x7d").data
        = '\x7b' :: c.sourceCode.data ++ ['\x7d'] := by
      rw [String.data_append, String.data_append]
      rfl
    have hstripw : solcParseText ("\x7b" ++ c.sourceCode ++ "\x7d")
        = c.sourceCode := by
      unfold solcParseText
      have hsub : jsSubstr0 ("\x7b" ++ c.sourceCode ++ "\x7d") 2
          = "\x7b\x7b" := by
        apply string_eq_of_data
        simp only [jsSubstr0, hwdata, ht]
        rfl
      rw [hsub]
      simp only [beq_self_eq_true, if_true]
      apply string_eq_of_data
      simp only [jsSliceTrimEnds, hwdata]
      simp [List.dropLast_concat]
    have hstripu : solcParseText c.sourceCode = c.sourceCode := by
      unfold solcParseText
      have : (jsSubstr0 c.sourceCode 2 == "\x7b\x7b") = false :=
        beq_eq_false_iff_ne.mpr hu2
      rw [this]
      simp
    exact solcInput_eq_of_same_parse parse _ c rfl rfl j
      (by simpa [hstripw] using hp) (by rw [hstripu]; exact hp) hj
  · intro parse c hp
    refine ⟨?_, ?_, ?_, ?_⟩ <;>
      simp [solcInput, hp, solcBaseInput, jsGet, jsGetPath, List.lookup]
  · intro parse c j hp hj hlang
    have hout : solcInput parse c = jsSetField (solcBaseInput c) ("sources") j := by
      cases j with
      | null => exact absurd rfl hj
      | bool b => simp_all [solcInput]
      | num n => simp_all [solcInput]
      | nan => simp_all [solcInput]
      | str s => simp_all [solcInput]
      | arr elems => simp_all [solcInput]
      | obj fields => simp_all [solcInput]
    rw [hout]
    refine ⟨?_, ?_, ?_⟩ <;>
      simp [solcBaseInput, jsSetField, jsSet, jsGet, jsGetPath, List.lookup]

/-- Witness for C8: the wrapped and unwrapped empty JSON object bundle, a
plain Solidity source, and a sources-only JSON bundle. -/
theorem C8_solc_input_resolution_witness :
    solcInput (fun s => if s = "\x7b\x7d" then some (.obj []) else none)
        { contractAddress := "0xaa", sourceCode := "\x7b\x7b\x7d\x7d",
          compilerVersion := "v", optimizationUsed := "1", runs := "200",
          contractName := "C" }
      = solcInput (fun s => if s = "\x7b\x7d" then some (.obj []) else none)
        { contractAddress := "0xaa", sourceCode := "\x7b\x7d",
          compilerVersion := "v", optimizationUsed := "1", runs := "200",
          contractName := "C" } ∧
    (jsGet (solcInput (fun _ => none)
        { contractAddress := "0xaa", sourceCode := "pragma",
          compilerVersion := "v", optimizationUsed := "1", runs := "200",
          contractName := "C" }) ("sources")
      = some (.obj [("file", .obj [("content", .str ("pragma"))])])) ∧
    (jsGetPath (solcInput (fun _ => none)
        { contractAddress := "0xaa", sourceCode := "pragma",
          compilerVersion := "v", optimizationUsed := "1", runs := "200",
          contractName := "C" }) ["settings", "optimizer", "runs"]
      = some (.num 200)) ∧
    (jsGet (solcInput (fun s => if s = "\x7b\x7d" then some (.obj []) else none)
        { contractAddress := "0xaa", sourceCode := "\x7b\x7d",
          compilerVersion := "v", optimizationUsed := "1", runs := "200",
          contractName := "C" }) ("sources")
      = some (.obj [])) := by
  refine ⟨?_, ?_, ?_, ?_⟩
  · exact C8_solc_input_resolution.1
      (fun s => if s = "\x7b\x7d" then some (.obj []) else none)
      { contractAddress := "0xaa", sourceCode := "\x7b\x7d",
        compilerVersion := "v", optimizationUsed := "1", runs := "200",
        contractName := "C" }
      (.obj []) rfl (by decide) rfl (fun h => JsVal.noConfusion h)
  · exact (C8_solc_input_resolution.2.1 (fun _ => none)
      { contractAddress := "0xaa", sourceCode := "pragma",
        compilerVersion := "v", optimizationUsed := "1", runs := "200",
        contractName := "C" } rfl).2.1
  · have := (C8_solc_input_resolution.2.1 (fun _ => none)
      { contractAddress := "0xaa", sourceCode := "pragma",
        compilerVersion := "v", optimizationUsed := "1", runs := "200",
        contractName := "C" } rfl).2.2.2
    simpa using this
  · exact (C8_solc_input_resolution.2.2
      (fun s => if s = "\x7b\x7d" then some (.obj []) else none)
      { contractAddress := "0xaa", sourceCode := "\x7b\x7d",
        compilerVersion := "v", optimizationUsed := "1", runs := "200",
        contractName := "C" }
      (.obj []) rfl (fun h => JsVal.noConfusion h) rfl).1

end Regen
